import Mathlib

/-!
Shallow embedding of the roulette spin decision engine from
`services/roulette/python/roulette_service_grpc.py`.

Modelling conventions:
* Python floats for amounts/payouts are modelled as `ℚ` (the amounts in play
  are small integers and the only arithmetic is multiplication by 2 and 36 and
  addition, all exact in binary floating point).
* The drawn number `random.randint(0, 36)` is passed in as a parameter `n0`.
* `random.random()` draws are passed in as rational parameters (`r_cheat`,
  `r_house`); `random.choice xs` is modelled as indexing by `idx % xs.length`
  for an arbitrary index parameter, mirroring a uniform index draw.
* gRPC bet legs are protobuf messages, so the attribute access paths of the
  source apply (`getattr(bet, 'value', ...)`, `bet.value`, `hasattr` true);
  a missing/unset string field reads as `""`, which is falsy in Python.
-/

namespace Roulette

/-- Red numbers on European roulette (`RED_NUMBERS`, line 125). -/
def RED_NUMBERS : List ℕ := [1, 3, 5, 7, 9, 12, 14, 16, 18, 19, 21, 23, 25, 27, 30, 32, 34, 36]

/-- Black numbers: `[n for n in range(1, 37) if n not in RED_NUMBERS]` (lines 270, 304). -/
def BLACK_NUMBERS : List ℕ := (List.range' 1 36).filter (fun n => n ∉ RED_NUMBERS)

/-- Even numbers `range(2, 37, 2)` = 2..36 (line 274). -/
def EVEN_NUMBERS : List ℕ := List.range' 2 18 2

/-- Odd numbers `range(1, 37, 2)` = 1..35 (line 278). -/
def ODD_NUMBERS : List ℕ := List.range' 1 18 2

/-- Low numbers `range(1, 19)` = 1..18 (line 282). -/
def LOW_NUMBERS : List ℕ := List.range' 1 18

/-- High numbers `range(19, 37)` = 19..36 (line 286). -/
def HIGH_NUMBERS : List ℕ := List.range' 19 18

/-- Color of a number, `get_color` (lines 139-143). -/
def get_color (number : ℕ) : String :=
  if number = 0 then "green"
  else if number ∈ RED_NUMBERS then "red" else "black"

/-- Boost chance per cheat kind, `get_cheat_boost_chance` (lines 128-136): unknown kinds map to 0. -/
def get_cheat_boost_chance (cheat_type : String) : ℚ :=
  if cheat_type = "ballControl" then 30/100
  else if cheat_type = "wheelBias" then 25/100
  else if cheat_type = "magneticField" then 40/100
  else if cheat_type = "sectorPrediction" then 35/100
  else 0

/-- Digits of a decimal numeral; `none` unless the list is a nonempty run of
digits.  Helper for `pyInt`. -/
def digitsToNat (cs : List Char) : Option ℕ :=
  if cs ≠ [] ∧ cs.all Char.isDigit then
    some (cs.foldl (fun a c => 10 * a + (c.toNat - 48)) 0)
  else none

/-- Python `int(s)` on a decimal string: optional sign followed by digits;
`none` models the `ValueError` raised otherwise (e.g. on `""`). -/
def pyInt (s : String) : Option ℤ :=
  match s.data with
  | [] => none
  | c :: rest =>
    if c = '-' then (digitsToNat rest).map (fun m => -(m : ℤ))
    else if c = '+' then (digitsToNat rest).map (fun m => (m : ℤ))
    else (digitsToNat (c :: rest)).map (fun m => (m : ℤ))

/-- One bet leg as carried in the gRPC `bet_value` map: a `type` string, an
`amount` number and a `value` string (`""` models an unset value field). -/
structure BetLeg where
  type : String
  amount : ℚ
  value : String
deriving DecidableEq

/-- Model of `random.choice xs` for nonempty `xs`: a uniform index draw
`idx`; the default is never used when `xs ≠ []`. -/
def py_choice (xs : List ℕ) (idx : ℕ) (d : ℕ) : ℕ :=
  xs.getD (idx % xs.length) d

/-- Candidate numbers the multiple-mode cheat collects for one leg
(lines 247-288): the straight target when it parses into [0,36], the full
red/black/even/odd/low/high sets for those kinds, nothing otherwise. -/
def leg_candidates (leg : BetLeg) : List ℕ :=
  if leg.type = "straight" then
    match pyInt leg.value with
    | some t => if 0 ≤ t ∧ t ≤ 36 then [t.toNat] else []
    | none => []
  else if leg.type = "red" then RED_NUMBERS
  else if leg.type = "black" then BLACK_NUMBERS
  else if leg.type = "even" then EVEN_NUMBERS
  else if leg.type = "odd" then ODD_NUMBERS
  else if leg.type = "low" then LOW_NUMBERS
  else if leg.type = "high" then HIGH_NUMBERS
  else []

/-- The `potential_winning_numbers` list built by the multiple-mode cheat loop
(lines 246-288): the per-leg candidate lists concatenated in map order. -/
def potential_winning_numbers (legs : List (String × BetLeg)) : List ℕ :=
  (legs.map (fun kv => leg_candidates kv.2)).flatten

/-- The set-union of satisfying numbers, as a duplicate-free list:
the numbers in [0,36] that appear in some leg's candidate set. -/
def cheat_union (legs : List (String × BetLeg)) : List ℕ :=
  (List.range 37).filter (fun n => legs.any (fun kv => n ∈ leg_candidates kv.2))

/-- First leg whose value parses as an integer in [0,36]
(single-mode straight cheat loop, lines 309-324: parse failures and
out-of-range values `continue`, a hit sets the number and breaks). -/
def first_straight_target : List (String × BetLeg) → Option ℕ
  | [] => none
  | (_, leg) :: rest =>
    match pyInt leg.value with
    | some t => if 0 ≤ t ∧ t ≤ 36 then some t.toNat else first_straight_target rest
    | none => first_straight_target rest

/-- Cheat adjustment (lines 236-324).  `cheat_boosted` is set as soon as the
boost-chance draw fires (line 240), before any replacement is attempted.
The source assigns `color` alongside each replacement; every such assignment
equals `get_color` of the assigned number, so the caller re-derives the color
from the returned number. -/
def apply_cheat (bet_type : String) (legs : List (String × BetLeg))
    (cheat_active : Bool) (cheat_type : String) (r : ℚ) (idx : ℕ) (n : ℕ) : ℕ × Bool :=
  if cheat_active = true ∧ cheat_type ≠ "" then
    if r < get_cheat_boost_chance cheat_type then
      let n2 :=
        if bet_type = "multiple" ∧ legs ≠ [] then
          let cands := potential_winning_numbers legs
          if cands ≠ [] then py_choice cands idx n else n
        else if bet_type = "red" ∧ get_color n ≠ "red" then
          py_choice RED_NUMBERS idx n
        else if bet_type = "black" ∧ get_color n ≠ "black" then
          py_choice BLACK_NUMBERS idx n
        else if bet_type = "straight" ∧ legs ≠ [] then
          match first_straight_target legs with
          | some t => t
          | none => n
        else n
      (n2, true)
    else (n, false)
  else (n, false)

/-- Whether one leg wins against the drawn number and its color
(multiple-bet loop, lines 373-420).  Unknown kinds never win. -/
def leg_wins (leg : BetLeg) (n : ℕ) (color : String) : Bool :=
  if leg.type = "red" then color == "red"
  else if leg.type = "black" then color == "black"
  else if leg.type = "even" then decide (0 < n ∧ n % 2 = 0)
  else if leg.type = "odd" then decide (0 < n ∧ n % 2 = 1)
  else if leg.type = "low" then decide (1 ≤ n ∧ n ≤ 18)
  else if leg.type = "high" then decide (19 ≤ n ∧ n ≤ 36)
  else if leg.type = "straight" then
    match pyInt leg.value with
    | some t => decide ((n : ℤ) = t)
    | none => false
  else false

/-- Payout of a winning leg (lines 422-434): 36x the leg amount for a
straight leg, 2x for every other kind. -/
def leg_payout (leg : BetLeg) : ℚ :=
  if leg.type = "straight" then leg.amount * 36 else leg.amount * 2

/-- The multiple-bet evaluation loop (lines 346-442): running `(win, total)`
accumulator over the legs in map order. -/
def eval_multiple (legs : List (String × BetLeg)) (n : ℕ) (color : String) : Bool × ℚ :=
  legs.foldl
    (fun acc kv =>
      if leg_wins kv.2 n color then (true, acc.2 + leg_payout kv.2) else acc)
    (false, 0)

/-- Single-mode straight evaluation loop (lines 477-485): win iff some leg's
value parses to the winning number; parse failures `continue`. -/
def straight_single_win : List (String × BetLeg) → ℕ → Bool
  | [], _ => false
  | (_, leg) :: rest, n =>
    match pyInt leg.value with
    | some t => if (n : ℤ) = t then true else straight_single_win rest n
    | none => straight_single_win rest n

/-- Bet evaluation (lines 337-493): the `if/elif` chain on the bet type. -/
def evaluate (bet_type : String) (bet_amount : ℚ)
    (legs : List (String × BetLeg)) (n : ℕ) (color : String) : Bool × ℚ :=
  if bet_type = "multiple" ∧ legs ≠ [] then eval_multiple legs n color
  else if bet_type = "red" then
    let w := color == "red"
    (w, if w then bet_amount * 2 else 0)
  else if bet_type = "black" then
    let w := color == "black"
    (w, if w then bet_amount * 2 else 0)
  else if bet_type = "even" then
    let w := decide (0 < n ∧ n % 2 = 0)
    (w, if w then bet_amount * 2 else 0)
  else if bet_type = "odd" then
    let w := decide (0 < n ∧ n % 2 = 1)
    (w, if w then bet_amount * 2 else 0)
  else if bet_type = "low" then
    let w := decide (1 ≤ n ∧ n ≤ 18)
    (w, if w then bet_amount * 2 else 0)
  else if bet_type = "high" then
    let w := decide (19 ≤ n ∧ n ≤ 36)
    (w, if w then bet_amount * 2 else 0)
  else if bet_type = "straight" then
    if legs ≠ [] then
      let w := straight_single_win legs n
      (w, if w then bet_amount * 36 else 0)
    else (false, 0)
  else (false, 0)

/-- House advantage block (lines 495-504): fires only on a positive-payout
win with the flag enabled and the draw below 0.25. -/
def apply_house_advantage (enabled won : Bool) (payout r : ℚ) : Bool × ℚ :=
  if won = true ∧ payout > 0 ∧ enabled = true ∧ r < 25/100 then (false, 0)
  else (won, payout)

/-- The spin request fields the decision engine reads: `""` models an absent
`bet_type`/`cheat_type`, amount `0` is falsy in Python (line 196). -/
structure SpinRequest where
  bet_type : String
  bet_amount : ℚ
  bet_value : List (String × BetLeg)
  cheat_active : Bool
  cheat_type : String
deriving DecidableEq

/-- The random draws a spin consumes, besides the initial `randint(0, 36)`. -/
structure Rand where
  r_cheat : ℚ
  choice_idx : ℕ
  r_house : ℚ
deriving DecidableEq

/-- The outcome fields of `SpinResponse` the decision engine computes. -/
structure SpinOutcome where
  winning_number : ℕ
  color : String
  win : Bool
  payout : ℚ
  cheat_boosted : Bool
deriving DecidableEq

/-- Default for the bet type: `bet_type = request.bet_type or "red"` (line 195). -/
def effective_bet_type (req : SpinRequest) : String :=
  if req.bet_type = "" then "red" else req.bet_type

/-- Default for the bet amount: `bet_amount = request.bet_amount or 10` (line 196); 0 is falsy. -/
def effective_bet_amount (req : SpinRequest) : ℚ :=
  if req.bet_amount = 0 then 10 else req.bet_amount

/-- The cheat-adjusted number and the boosted flag for a request. -/
def cheat_step (req : SpinRequest) (n0 : ℕ) (rand : Rand) : ℕ × Bool :=
  apply_cheat (effective_bet_type req) req.bet_value req.cheat_active
    req.cheat_type rand.r_cheat rand.choice_idx n0

/-- The raw evaluation result, before the house-advantage block. -/
def pre_house_result (req : SpinRequest) (n0 : ℕ) (rand : Rand) : Bool × ℚ :=
  evaluate (effective_bet_type req) (effective_bet_amount req) req.bet_value
    (cheat_step req n0 rand).1 (get_color (cheat_step req n0 rand).1)

/-- The spin pipeline (lines 165-584, decision logic only): draw → cheat adjustment →
evaluation → house advantage → outcome assembly. -/
def Spin (house_advantage_enabled : Bool) (req : SpinRequest) (n0 : ℕ)
    (rand : Rand) : SpinOutcome :=
  let nb := cheat_step req n0 rand
  let ev := pre_house_result req n0 rand
  let fin := apply_house_advantage house_advantage_enabled ev.1 ev.2 rand.r_house
  ⟨nb.1, get_color nb.1, fin.1, fin.2, nb.2⟩

/-- Under a uniform index draw, `random.choice cands` gives each value a
probability proportional to its number of occurrences in `cands`; the induced
distribution is uniform on a set `s` iff all members of `s` occur equally
often in `cands`. -/
def choice_uniform_on (cands s : List ℕ) : Prop :=
  ∀ a ∈ s, ∀ b ∈ s, cands.count a = cands.count b

instance (cands s : List ℕ) : Decidable (choice_uniform_on cands s) :=
  inferInstanceAs (Decidable (∀ a ∈ s, ∀ b ∈ s, cands.count a = cands.count b))

/-- Two legs used in concrete checks: a straight bet on the red number 1 and
a red bet, so 1 satisfies both legs. -/
def c4_legs : List (String × BetLeg) := [("a", ⟨"straight", 5, "1"⟩), ("b", ⟨"red", 10, ""⟩)]

/-- A request placing a single even bet with an active wheelBias cheat. -/
def c6_req : SpinRequest := ⟨"even", 10, [], true, "wheelBias"⟩

section
attribute [local semireducible] Rat.mul Rat.add Rat.inv

/-- Every red number is colored red. -/
theorem red_mem_get_color : ∀ m ∈ RED_NUMBERS, get_color m = "red" := by decide

/-- Every black number is colored black. -/
theorem black_mem_get_color : ∀ m ∈ BLACK_NUMBERS, get_color m = "black" := by decide

/-- A choice from a nonempty list is a member of it. -/
theorem py_choice_mem (xs : List ℕ) (idx d : ℕ) (h : xs ≠ []) :
    py_choice xs idx d ∈ xs := by
  have hlen : 0 < xs.length := List.length_pos.mpr h
  have hm : idx % xs.length < xs.length := Nat.mod_lt _ hlen
  rw [py_choice, List.getD_eq_getElem _ _ hm]
  exact List.getElem_mem hm

/-- Every member of a list is reachable by some choice index. -/
theorem py_choice_surj (xs : List ℕ) (m d : ℕ) (h : m ∈ xs) :
    ∃ i, py_choice xs i d = m := by
  obtain ⟨j, hj, hEq⟩ := List.getElem_of_mem h
  refine ⟨j, ?_⟩
  rw [py_choice, Nat.mod_eq_of_lt hj, List.getD_eq_getElem _ _ hj, hEq]

/-- C7: the color function is total on [0,36]: green exactly for 0, red
exactly on the fixed 18-number red set, black exactly on the remaining 18
numbers of [1,36]; the red and black sets are disjoint and together with 0
cover [0,36]. -/
theorem color_partition :
    RED_NUMBERS.length = 18 ∧ RED_NUMBERS.Nodup
    ∧ BLACK_NUMBERS.length = 18 ∧ BLACK_NUMBERS.Nodup
    ∧ (∀ m ∈ RED_NUMBERS, 1 ≤ m ∧ m ≤ 36)
    ∧ (∀ m ∈ BLACK_NUMBERS, 1 ≤ m ∧ m ≤ 36)
    ∧ ∀ n, n < 37 →
        (get_color n = "green" ∨ get_color n = "red" ∨ get_color n = "black")
        ∧ (get_color n = "green" ↔ n = 0)
        ∧ (get_color n = "red" ↔ n ∈ RED_NUMBERS)
        ∧ (get_color n = "black" ↔ n ∈ BLACK_NUMBERS)
        ∧ ¬ (n ∈ RED_NUMBERS ∧ n ∈ BLACK_NUMBERS)
        ∧ (n = 0 ∨ n ∈ RED_NUMBERS ∨ n ∈ BLACK_NUMBERS) :=
  ⟨by decide, by decide, by decide, by decide, by decide, by decide, by decide⟩

/-- Witness for C7 at number 0. -/
theorem color_partition_witness : get_color 0 = "green" :=
  (color_partition.2.2.2.2.2.2 0 (by decide)).2.1.mpr rfl

/-- The multiple-bet loop, characterized: starting from accumulator `(b, q)`
it produces the disjunction with all legs' outcomes and adds every winning
leg's payout. -/
theorem eval_multiple_foldl (n : ℕ) (color : String) :
    ∀ (legs : List (String × BetLeg)) (b : Bool) (q : ℚ),
    legs.foldl
        (fun acc kv =>
          if leg_wins kv.2 n color then (true, acc.2 + leg_payout kv.2) else acc)
        (b, q)
      = (b || legs.any fun kv => leg_wins kv.2 n color,
         q + (legs.map fun kv =>
            if leg_wins kv.2 n color then leg_payout kv.2 else 0).sum) := by
  intro legs
  induction legs with
  | nil => intro b q; simp
  | cons kv rest ih =>
    intro b q
    by_cases h : leg_wins kv.2 n color
    · simp [h, ih, add_assoc]
    · simp [h, ih]

/-- C1: in multiple mode every leg is evaluated independently against the
same drawn number and its color; the overall win flag is the disjunction of
the legs' outcomes, and the payout is the sum over winning legs of 36x the
leg amount for a straight leg and 2x for every other kind, with losing legs
contributing exactly 0. -/
theorem multiple_mode_or_sum (legs : List (String × BetLeg)) (amt : ℚ)
    (n : ℕ) (color : String) :
    evaluate "multiple" amt legs n color
      = (legs.any fun kv => leg_wins kv.2 n color,
         (legs.map fun kv =>
            if leg_wins kv.2 n color then leg_payout kv.2 else 0).sum) := by
  cases legs with
  | nil => rfl
  | cons kv rest =>
    show eval_multiple (kv :: rest) n color = _
    unfold eval_multiple
    rw [eval_multiple_foldl]
    simp

/-- C3: the house-edge adjuster runs strictly after bet evaluation (the final
win/payout of a spin is the adjuster applied to the raw evaluation result);
it passes the outcome through unchanged when the flag is disabled or the
pre-adjustment result is not a win, it never converts a loss into a win, and
on an enabled positive-payout win it forces a loss exactly when the uniform
draw is below 0.25 and is the identity otherwise. -/
theorem house_edge_adjuster_spec (enabled won : Bool) (payout r : ℚ) :
    (enabled = false → apply_house_advantage enabled won payout r = (won, payout))
    ∧ (won = false → apply_house_advantage enabled won payout r = (won, payout))
    ∧ ((apply_house_advantage enabled won payout r).1 = true → won = true)
    ∧ (enabled = true → won = true → 0 < payout →
        (r < 25/100 → apply_house_advantage enabled won payout r = (false, 0))
        ∧ (¬ r < 25/100 → apply_house_advantage enabled won payout r = (won, payout)))
    ∧ (∀ (req : SpinRequest) (n0 : ℕ) (rand : Rand),
        ((Spin enabled req n0 rand).win, (Spin enabled req n0 rand).payout)
          = apply_house_advantage enabled (pre_house_result req n0 rand).1
              (pre_house_result req n0 rand).2 rand.r_house) := by
  unfold apply_house_advantage
  refine ⟨?_, ?_, ?_, ?_, fun req n0 rand => rfl⟩
  · intro h; simp [h]
  · intro h; simp [h]
  · split_ifs with h
    · intro _; exact h.1
    · intro h2; exact h2
  · intro he hw hp
    constructor
    · intro hr; simp [he, hw, hp, hr]
    · intro hr; simp [hr]

/-- Witness for C3: an enabled win of 20 with draw 0 is forced to a loss. -/
theorem house_edge_adjuster_witness :
    apply_house_advantage true true 20 0 = (false, 0) :=
  ((house_edge_adjuster_spec true true 20 0).2.2.2.1 rfl rfl (by decide)).1 (by decide)

/-- C2: a single-mode straight bet with a parseable target `t` in [0,36] and
nonzero amount `a`, with the cheat inactive and house advantage disabled,
pays either 0 or 36x the amount, and pays 36x the amount exactly when the
drawn number equals `t`. -/
theorem single_straight_payout (t : ℕ) (a : ℚ) (k : String) (leg : BetLeg)
    (ct : String) (n0 : ℕ) (rand : Rand) (_ht : t ≤ 36) (ha : a ≠ 0)
    (hv : pyInt leg.value = some (t : ℤ)) :
    ((Spin false ⟨"straight", a, [(k, leg)], false, ct⟩ n0 rand).payout = 0
      ∨ (Spin false ⟨"straight", a, [(k, leg)], false, ct⟩ n0 rand).payout = a * 36)
    ∧ ((Spin false ⟨"straight", a, [(k, leg)], false, ct⟩ n0 rand).payout = a * 36
        ↔ n0 = t) := by
  have hcast : ((n0 : ℤ) = (t : ℤ)) ↔ n0 = t := Int.natCast_inj
  have h36 : a * 36 ≠ 0 := by
    intro h
    rcases mul_eq_zero.mp h with h1 | h1
    · exact ha h1
    · norm_num at h1
  by_cases hn : n0 = t
  · simp [Spin, cheat_step, pre_house_result, apply_cheat, evaluate,
      effective_bet_type, effective_bet_amount, apply_house_advantage,
      straight_single_win, hv, ha, hn]
  · have hne : ¬ ((n0 : ℤ) = (t : ℤ)) := fun h => hn (hcast.mp h)
    simp [Spin, cheat_step, pre_house_result, apply_cheat, evaluate,
      effective_bet_type, effective_bet_amount, apply_house_advantage,
      straight_single_win, hv, ha, hn, hne]

/-- Witness for C2: target 17, amount 5, drawn 17 pays 180. -/
theorem single_straight_payout_witness :
    (Spin false ⟨"straight", 5, [("b1", ⟨"straight", 5, "17"⟩)], false, ""⟩
        17 ⟨0, 0, 1⟩).payout = 5 * 36 :=
  (single_straight_payout 17 5 "b1" ⟨"straight", 5, "17"⟩ "" 17 ⟨0, 0, 1⟩
      (by decide) (by norm_num) (by decide)).2.mpr rfl

/-- Membership in the concatenated candidate list is membership in some
leg's candidate set. -/
theorem mem_potential_winning_numbers (legs : List (String × BetLeg)) (m : ℕ) :
    m ∈ potential_winning_numbers legs ↔ ∃ kv ∈ legs, m ∈ leg_candidates kv.2 := by
  simp only [potential_winning_numbers, List.mem_flatten, List.mem_map, Prod.exists]
  constructor
  · rintro ⟨l, ⟨a, b, hab, rfl⟩, hm⟩; exact ⟨a, b, hab, hm⟩
  · rintro ⟨a, b, hab, hm⟩; exact ⟨leg_candidates b, ⟨a, b, hab, rfl⟩, hm⟩

/-- Every candidate number is on the wheel. -/
theorem leg_candidates_lt_37 (leg : BetLeg) (m : ℕ) (hm : m ∈ leg_candidates leg) :
    m < 37 := by
  by_cases h1 : leg.type = "straight"
  · rw [leg_candidates, if_pos h1] at hm
    cases hp : pyInt leg.value with
    | none => rw [hp] at hm; simp at hm
    | some t =>
      rw [hp] at hm
      by_cases hrange : 0 ≤ t ∧ t ≤ 36
      · simp only [hrange, and_self, if_true, List.mem_singleton] at hm
        subst hm
        omega
      · simp [hrange] at hm
  · rw [leg_candidates, if_neg h1] at hm
    split_ifs at hm
    · exact (by decide : ∀ x ∈ RED_NUMBERS, x < 37) m hm
    · exact (by decide : ∀ x ∈ BLACK_NUMBERS, x < 37) m hm
    · exact (by decide : ∀ x ∈ EVEN_NUMBERS, x < 37) m hm
    · exact (by decide : ∀ x ∈ ODD_NUMBERS, x < 37) m hm
    · exact (by decide : ∀ x ∈ LOW_NUMBERS, x < 37) m hm
    · exact (by decide : ∀ x ∈ HIGH_NUMBERS, x < 37) m hm
    · simp at hm

/-- Membership in the union list is membership in some leg's candidate set. -/
theorem mem_cheat_union (legs : List (String × BetLeg)) (m : ℕ) :
    m ∈ cheat_union legs ↔ ∃ kv ∈ legs, m ∈ leg_candidates kv.2 := by
  simp only [cheat_union, List.mem_filter, List.mem_range, List.any_eq_true,
    decide_eq_true_eq]
  constructor
  · rintro ⟨-, kv, hkv, hm⟩; exact ⟨kv, hkv, hm⟩
  · rintro ⟨kv, hkv, hm⟩
    exact ⟨leg_candidates_lt_37 kv.2 m hm, kv, hkv, hm⟩

/-- C4 counterexample: with a straight leg on the red number 1 and a red leg,
the number 1 occurs twice in the candidate list while 3 occurs once, so the
replacement drawn by a uniform index into the candidate list is not uniform
over the union of satisfying numbers. -/
theorem multiple_cheat_not_uniform_on_union :
    (potential_winning_numbers c4_legs).count 1 = 2
    ∧ (potential_winning_numbers c4_legs).count 3 = 1
    ∧ 1 ∈ cheat_union c4_legs ∧ 3 ∈ cheat_union c4_legs
    ∧ ¬ choice_uniform_on (potential_winning_numbers c4_legs) (cheat_union c4_legs)
    ∧ (apply_cheat "multiple" c4_legs true "wheelBias" 0 0 0).1 = 1 := by decide

/-- C4 as amended: a fired multiple-mode cheat draws uniformly over the
concatenated per-leg candidate list (weighted by how many legs a number
satisfies, so uniform over the union only when no number satisfies several
legs); the candidate list has the same members as the union, a replacement
always lands in the union, every union member is reachable, and an empty
union leaves the number unchanged. -/
theorem multiple_cheat_union_support (legs : List (String × BetLeg)) (ct : String)
    (r : ℚ) (idx n : ℕ) (hct : ct ≠ "") (hr : r < get_cheat_boost_chance ct)
    (hlegs : legs ≠ []) :
    (apply_cheat "multiple" legs true ct r idx n).2 = true
    ∧ (∀ m, m ∈ potential_winning_numbers legs ↔ m ∈ cheat_union legs)
    ∧ (potential_winning_numbers legs = [] →
        (apply_cheat "multiple" legs true ct r idx n).1 = n)
    ∧ (potential_winning_numbers legs ≠ [] →
        (apply_cheat "multiple" legs true ct r idx n).1
            = py_choice (potential_winning_numbers legs) idx n
        ∧ (apply_cheat "multiple" legs true ct r idx n).1 ∈ cheat_union legs)
    ∧ (∀ m ∈ cheat_union legs, ∃ i,
        (apply_cheat "multiple" legs true ct r i n).1 = m) := by
  have hach : ∀ i, apply_cheat "multiple" legs true ct r i n
      = (if potential_winning_numbers legs ≠ []
          then py_choice (potential_winning_numbers legs) i n else n, true) := by
    intro i
    simp [apply_cheat, hct, hr, hlegs]
  refine ⟨by rw [hach], fun m => (mem_potential_winning_numbers legs m).trans
      (mem_cheat_union legs m).symm, ?_, ?_, ?_⟩
  · intro h; rw [hach, if_neg (by simp [h])]
  · intro h
    rw [hach, if_pos h]
    refine ⟨rfl, ?_⟩
    have hmem := py_choice_mem (potential_winning_numbers legs) idx n h
    exact ((mem_potential_winning_numbers legs _).trans
      (mem_cheat_union legs _).symm).symm.mpr hmem
  · intro m hm
    have hp : m ∈ potential_winning_numbers legs :=
      (mem_potential_winning_numbers legs m).mpr ((mem_cheat_union legs m).mp hm)
    obtain ⟨i, hi⟩ := py_choice_surj (potential_winning_numbers legs) m n hp
    refine ⟨i, ?_⟩
    rw [hach, if_pos (List.ne_nil_of_mem hp)]
    exact hi

/-- Witness for the amended C4 on a concrete pair of legs. -/
theorem multiple_cheat_union_support_witness :
    (apply_cheat "multiple" c4_legs true "wheelBias" 0 0 5).2 = true :=
  (multiple_cheat_union_support c4_legs "wheelBias" 0 0 5 (by decide) (by decide)
    (by decide)).1

/-- C5: when the cheat adjuster fires in single mode, a red or black bet
whose drawn color does not match is replaced by a uniformly indexed member
of the matching 18-number color set (every member reachable), a matching
red/black bet and a straight bet are handled as in the source (first
parseable target in [0,36] replaces the number), and a fired black-bet cheat
on a red draw yields a guaranteed win with the color re-derived as black. -/
theorem single_cheat_spec (ct : String) (r : ℚ) (idx n : ℕ)
    (legs : List (String × BetLeg)) (hct : ct ≠ "")
    (hr : r < get_cheat_boost_chance ct) :
    (get_color n ≠ "red" →
      apply_cheat "red" legs true ct r idx n = (py_choice RED_NUMBERS idx n, true)
      ∧ py_choice RED_NUMBERS idx n ∈ RED_NUMBERS
      ∧ get_color (py_choice RED_NUMBERS idx n) = "red")
    ∧ (get_color n ≠ "black" →
        apply_cheat "black" legs true ct r idx n = (py_choice BLACK_NUMBERS idx n, true)
        ∧ py_choice BLACK_NUMBERS idx n ∈ BLACK_NUMBERS
        ∧ get_color (py_choice BLACK_NUMBERS idx n) = "black")
    ∧ (get_color n = "red" → apply_cheat "red" legs true ct r idx n = (n, true))
    ∧ (get_color n = "black" → apply_cheat "black" legs true ct r idx n = (n, true))
    ∧ (∀ t, first_straight_target legs = some t →
        apply_cheat "straight" legs true ct r idx n = (t, true))
    ∧ (get_color n ≠ "red" → ∀ m ∈ RED_NUMBERS, ∃ i,
        apply_cheat "red" legs true ct r i n = (m, true))
    ∧ (get_color n ≠ "black" → ∀ m ∈ BLACK_NUMBERS, ∃ i,
        apply_cheat "black" legs true ct r i n = (m, true))
    ∧ (∀ (req : SpinRequest) (n0 : ℕ) (rand : Rand),
        req.bet_type = "black" → req.cheat_active = true → req.cheat_type = ct →
        rand.r_cheat = r → get_color n0 = "red" →
        (Spin false req n0 rand).color = "black"
        ∧ (Spin false req n0 rand).win = true
        ∧ (Spin false req n0 rand).payout = effective_bet_amount req * 2) := by
  have hredne : RED_NUMBERS ≠ [] := by decide
  have hblackne : BLACK_NUMBERS ≠ [] := by decide
  refine ⟨?_, ?_, ?_, ?_, ?_, ?_, ?_, ?_⟩
  · intro hcol
    refine ⟨by simp [apply_cheat, hct, hr, hcol], py_choice_mem _ _ _ hredne,
      red_mem_get_color _ (py_choice_mem _ _ _ hredne)⟩
  · intro hcol
    refine ⟨by simp [apply_cheat, hct, hr, hcol], py_choice_mem _ _ _ hblackne,
      black_mem_get_color _ (py_choice_mem _ _ _ hblackne)⟩
  · intro hcol; simp [apply_cheat, hct, hr, hcol]
  · intro hcol; simp [apply_cheat, hct, hr, hcol]
  · intro t hft
    have hlegs2 : legs ≠ [] := by
      intro h; rw [h] at hft; simp [first_straight_target] at hft
    simp [apply_cheat, hct, hr, hft, hlegs2]
  · intro hcol m hm
    obtain ⟨i, hi⟩ := py_choice_surj RED_NUMBERS m n hm
    exact ⟨i, by simp [apply_cheat, hct, hr, hcol, hi]⟩
  · intro hcol m hm
    obtain ⟨i, hi⟩ := py_choice_surj BLACK_NUMBERS m n hm
    exact ⟨i, by simp [apply_cheat, hct, hr, hcol, hi]⟩
  · intro req n0 rand hbt hca hctq hrq hcol
    have hcolne : get_color n0 ≠ "black" := by rw [hcol]; decide
    have hefft : effective_bet_type req = "black" := by
      rw [effective_bet_type, hbt]; rfl
    have hcs : cheat_step req n0 rand
        = (py_choice BLACK_NUMBERS rand.choice_idx n0, true) := by
      rw [cheat_step, hefft, hca, hctq, hrq]
      simp [apply_cheat, hct, hr, hcolne]
    have hcolor : get_color (py_choice BLACK_NUMBERS rand.choice_idx n0) = "black" :=
      black_mem_get_color _ (py_choice_mem _ _ _ hblackne)
    have hev : pre_house_result req n0 rand
        = (true, effective_bet_amount req * 2) := by
      rw [pre_house_result, hefft, hcs]
      simp [evaluate, hcolor]
    have hha : apply_house_advantage false true (effective_bet_amount req * 2)
        rand.r_house = (true, effective_bet_amount req * 2) := by
      simp [apply_house_advantage]
    simp [Spin, hcs, hev, hha, hcolor]

/-- Witness for C5: a fired wheelBias cheat on a black bet with a red draw
wins. -/
theorem single_cheat_spec_witness :
    (Spin false ⟨"black", 10, [], true, "wheelBias"⟩ 1 ⟨0, 3, 1⟩).win = true :=
  ((single_cheat_spec "wheelBias" 0 3 1 [] (by decide) (by decide)).2.2.2.2.2.2.2
    ⟨"black", 10, [], true, "wheelBias"⟩ 1 ⟨0, 3, 1⟩ rfl rfl rfl rfl (by decide)).2.1

/-- C6 counterexample: a single-mode even bet with a fired wheelBias cheat
leaves the drawn number 2 unchanged, yet the outcome reports
cheatBoosted = true. -/
theorem cheat_boosted_without_replacement :
    (Spin false c6_req 2 ⟨0, 0, 1⟩).cheat_boosted = true
    ∧ (Spin false c6_req 2 ⟨0, 0, 1⟩).winning_number = 2 := by decide

/-- C6 as amended: cheatBoosted is true iff cheatActive is set, cheatKind is
non-empty and the boost-chance draw fires, regardless of whether the drawn
number was actually replaced. -/
theorem cheat_boosted_iff_chance_fired (flag : Bool) (req : SpinRequest)
    (n0 : ℕ) (rand : Rand) :
    (Spin flag req n0 rand).cheat_boosted = true
      ↔ (req.cheat_active = true ∧ req.cheat_type ≠ ""
          ∧ rand.r_cheat < get_cheat_boost_chance req.cheat_type) := by
  show (cheat_step req n0 rand).2 = true ↔ _
  rw [cheat_step, apply_cheat]
  by_cases h1 : req.cheat_active = true ∧ req.cheat_type ≠ ""
  · rw [if_pos h1]
    by_cases h2 : rand.r_cheat < get_cheat_boost_chance req.cheat_type
    · rw [if_pos h2]
      simp [h1.1, h1.2, h2]
    · rw [if_neg h2]
      simp [h2]
  · rw [if_neg h1]
    constructor
    · intro h; simp at h
    · rintro ⟨ha, hb, -⟩; exact absurd ⟨ha, hb⟩ h1

/-- C8: the even, odd, low and high classifications exclude 0 in single and
multiple mode alike: each wins exactly on its arithmetic range, and a drawn
0 loses for all four kinds in both modes. -/
theorem zero_excluded_spec (n : ℕ) (amt : ℚ) (legs : List (String × BetLeg))
    (color : String) (leg : BetLeg) :
    ((evaluate "even" amt legs n color).1 = true ↔ (0 < n ∧ n % 2 = 0))
    ∧ ((evaluate "odd" amt legs n color).1 = true ↔ (0 < n ∧ n % 2 = 1))
    ∧ ((evaluate "low" amt legs n color).1 = true ↔ (1 ≤ n ∧ n ≤ 18))
    ∧ ((evaluate "high" amt legs n color).1 = true ↔ (19 ≤ n ∧ n ≤ 36))
    ∧ evaluate "even" amt legs 0 color = (false, 0)
    ∧ evaluate "odd" amt legs 0 color = (false, 0)
    ∧ evaluate "low" amt legs 0 color = (false, 0)
    ∧ evaluate "high" amt legs 0 color = (false, 0)
    ∧ (leg.type = "even" → (leg_wins leg n color = true ↔ (0 < n ∧ n % 2 = 0)))
    ∧ (leg.type = "odd" → (leg_wins leg n color = true ↔ (0 < n ∧ n % 2 = 1)))
    ∧ (leg.type = "low" → (leg_wins leg n color = true ↔ (1 ≤ n ∧ n ≤ 18)))
    ∧ (leg.type = "high" → (leg_wins leg n color = true ↔ (19 ≤ n ∧ n ≤ 36)))
    ∧ ((leg.type = "even" ∨ leg.type = "odd" ∨ leg.type = "low"
          ∨ leg.type = "high") → leg_wins leg 0 color = false) := by
  refine ⟨decide_eq_true_iff, decide_eq_true_iff, decide_eq_true_iff,
    decide_eq_true_iff, rfl, rfl, rfl, rfl, ?_, ?_, ?_, ?_, ?_⟩
  · intro ht; simp [leg_wins, ht]
  · intro ht; simp [leg_wins, ht]
  · intro ht; simp [leg_wins, ht]
  · intro ht; simp [leg_wins, ht]
  · rintro (ht | ht | ht | ht) <;> simp [leg_wins, ht]

/-- Witness for C8 at an even leg and a drawn 0. -/
theorem zero_excluded_spec_witness :
    leg_wins ⟨"even", 1, ""⟩ 0 "green" = false :=
  (zero_excluded_spec 0 1 [] "green" ⟨"even", 1, ""⟩).2.2.2.2.2.2.2.2.2.2.2.2
    (Or.inl rfl)

/-- When the cheat flag is off the adjuster is the identity. -/
theorem apply_cheat_inactive (bt ct : String) (legs : List (String × BetLeg))
    (r : ℚ) (idx n : ℕ) : apply_cheat bt legs false ct r idx n = (n, false) := by
  simp [apply_cheat]

/-- C9: with cheatActive false the adjuster never fires for any cheat kind
(number unchanged, boosted false, also at the spin level), and an unknown
cheat kind has boost chance 0 and so never causes a replacement even when
cheatActive is true (the uniform draw being nonnegative). -/
theorem cheat_inactive_spec (bt ct : String) (legs : List (String × BetLeg))
    (r : ℚ) (idx n : ℕ) :
    apply_cheat bt legs false ct r idx n = (n, false)
    ∧ (ct ≠ "ballControl" → ct ≠ "wheelBias" → ct ≠ "magneticField" →
        ct ≠ "sectorPrediction" → get_cheat_boost_chance ct = 0)
    ∧ (ct ≠ "ballControl" → ct ≠ "wheelBias" → ct ≠ "magneticField" →
        ct ≠ "sectorPrediction" → 0 ≤ r →
        apply_cheat bt legs true ct r idx n = (n, false))
    ∧ (∀ (flag : Bool) (req : SpinRequest) (n0 : ℕ) (rand : Rand),
        req.cheat_active = false →
        (Spin flag req n0 rand).winning_number = n0
        ∧ (Spin flag req n0 rand).cheat_boosted = false) := by
  have hchance : ct ≠ "ballControl" → ct ≠ "wheelBias" → ct ≠ "magneticField" →
      ct ≠ "sectorPrediction" → get_cheat_boost_chance ct = 0 := by
    intro h1 h2 h3 h4
    rw [get_cheat_boost_chance, if_neg h1, if_neg h2, if_neg h3, if_neg h4]
  refine ⟨apply_cheat_inactive bt ct legs r idx n, hchance, ?_, ?_⟩
  · intro h1 h2 h3 h4 hr
    rw [apply_cheat]
    by_cases hct : ct = ""
    · rw [if_neg (by simp [hct])]
    · rw [if_pos ⟨rfl, hct⟩, hchance h1 h2 h3 h4, if_neg (not_lt.mpr hr)]
  · intro flag req n0 rand hca
    have h := apply_cheat_inactive (effective_bet_type req) req.cheat_type
      req.bet_value rand.r_cheat rand.choice_idx n0
    constructor
    · show (cheat_step req n0 rand).1 = n0
      rw [cheat_step, hca, h]
    · show (cheat_step req n0 rand).2 = false
      rw [cheat_step, hca, h]

/-- Witness for C9: an unknown cheat kind never replaces the number. -/
theorem cheat_inactive_spec_witness :
    apply_cheat "red" [] true "telekinesis" (1/2) 0 5 = (5, false) :=
  (cheat_inactive_spec "red" "telekinesis" [] (1/2) 0 5).2.2.1
    (by decide) (by decide) (by decide) (by decide) (by decide)

/-- C10: an empty bet kind is resolved as a red bet and a zero bet amount is
resolved as 10, at the full spin interface; with a zero-amount red bet and a
red draw the returned payout is 20. -/
theorem request_defaults_spec :
    (∀ (flag : Bool) (ba : ℚ) (legs : List (String × BetLeg)) (ca : Bool)
        (ct : String) (n0 : ℕ) (rand : Rand),
        Spin flag ⟨"", ba, legs, ca, ct⟩ n0 rand
          = Spin flag ⟨"red", ba, legs, ca, ct⟩ n0 rand)
    ∧ (∀ (flag : Bool) (bt : String) (legs : List (String × BetLeg)) (ca : Bool)
        (ct : String) (n0 : ℕ) (rand : Rand),
        Spin flag ⟨bt, 0, legs, ca, ct⟩ n0 rand
          = Spin flag ⟨bt, 10, legs, ca, ct⟩ n0 rand)
    ∧ (Spin false ⟨"red", 0, [], false, ""⟩ 1 ⟨0, 0, 1⟩).payout = 20 := by
  refine ⟨?_, ?_, by decide⟩
  · intro flag ba legs ca ct n0 rand
    simp [Spin, cheat_step, pre_house_result, effective_bet_type,
      effective_bet_amount]
  · intro flag bt legs ca ct n0 rand
    simp [Spin, cheat_step, pre_house_result, effective_bet_type,
      effective_bet_amount]

end

end Roulette
